import Mathlib

/-!
Verification development for the Fertilizer-Tracker bookkeeping application.

The definitions below are a shallow embedding of the aggregation and CSV
import/export logic of `app.py`:

* `Bill.calculate_total` models `Bill.calculate_total`;
* `total_expenses`, `category_breakdown`, `total_acres`, `cost_per_acre`
  model the dashboard rollup in the `index` route;
* `export_data` / `import_data` model the CSV exchange routes.

Monetary amounts and field areas are modelled as exact rationals (`ℚ`);
Python `float` rounding of binary doubles is not modelled, so theorems about
the 2-decimal CSV formatting carry explicit exact-2-decimal hypotheses.
CSV files are modelled as lists of rows, each row a list of string fields
(the `csv` module's quoting layer is outside the model).
-/

namespace FertilizerTracker

/-! ### Decimal digits and Python-style string primitives -/

/-- The ten decimal digit characters. -/
def digitChars : List Char := ['0', '1', '2', '3', '4', '5', '6', '7', '8', '9']

/-- The character for a single decimal digit. -/
def digitChar (d : Nat) : Char := Char.ofNat (48 + d)

/-- Big-endian decimal digits of a positive number (fuel-driven so that it
reduces in the kernel); empty for `0`. -/
def natToCharsAux : Nat → Nat → List Char
  | 0, _ => []
  | fuel + 1, n => if n = 0 then [] else natToCharsAux fuel (n / 10) ++ [digitChar (n % 10)]

/-- Decimal representation of a natural number, as Python's `str` produces it. -/
def natToChars (n : Nat) : List Char := if n = 0 then ['0'] else natToCharsAux (n + 1) n

/-- Left-pad a digit string with zeros to width `w` (as in `%02d`/ISO dates). -/
def padChars (w : Nat) (cs : List Char) : List Char :=
  List.replicate (w - cs.length) '0' ++ cs

/-- Numeric value of a big-endian digit string. -/
def digitsVal (cs : List Char) : Nat :=
  cs.foldl (fun a c => 10 * a + (c.toNat - 48)) 0

/-- All characters are decimal digits. -/
def allDigits (cs : List Char) : Bool := cs.all Char.isDigit

/-- Parse a non-empty all-digit string, as Python's `int` does inside
`strptime` groups. -/
def charsToNat? (cs : List Char) : Option Nat :=
  if cs ≠ [] ∧ allDigits cs then some (digitsVal cs) else none

/-- Split on a separator character (like `str.split(sep)` for a 1-char `sep`). -/
def splitOnChar (sep : Char) : List Char → List (List Char)
  | [] => [[]]
  | c :: cs =>
    let r := splitOnChar sep cs
    if c = sep then [] :: r
    else
      match r with
      | g :: gs => (c :: g) :: gs
      | [] => [[c]]

/-- Remove leading and trailing whitespace, as Python's `str.strip()`. -/
def stripChars (cs : List Char) : List Char :=
  ((cs.dropWhile Char.isWhitespace).reverse.dropWhile Char.isWhitespace).reverse

/-- Python `str.strip()` on Lean strings. -/
def pyStrip (s : String) : String := ⟨stripChars s.data⟩

/-- Python `str.replace(c, '')` for a single-character pattern: every
occurrence of `c` is removed. -/
def removeChar (c : Char) (s : String) : String := ⟨s.data.filter (fun x => x ≠ c)⟩

/-! ### Dates

`datetime.date` values; `formatDate` is both `str(date)` (the ISO form used
in the import grouping key) and `date.strftime('%Y-%m-%d')` (export), and
`parseDate` is `datetime.strptime(s, '%Y-%m-%d').date()` returning `none`
where Python raises `ValueError`. -/

structure PDate where
  year : Nat
  month : Nat
  day : Nat
deriving DecidableEq, Repr

/-- Days in a month, with the Gregorian leap rule (as `datetime` validates). -/
def daysInMonth (y m : Nat) : Nat :=
  if m = 2 then (if (y % 4 = 0 ∧ y % 100 ≠ 0) ∨ y % 400 = 0 then 29 else 28)
  else if m = 4 ∨ m = 6 ∨ m = 9 ∨ m = 11 then 30 else 31

/-- A date `datetime.date` accepts: year in `1..9999`, real calendar day. -/
def ValidDate (d : PDate) : Prop :=
  1 ≤ d.year ∧ d.year ≤ 9999 ∧ 1 ≤ d.month ∧ d.month ≤ 12 ∧
    1 ≤ d.day ∧ d.day ≤ daysInMonth d.year d.month

instance (d : PDate) : Decidable (ValidDate d) := by
  unfold ValidDate; infer_instance

/-- the character list of the ISO form `YYYY-MM-DD`. -/
def formatDateChars (d : PDate) : List Char :=
  padChars 4 (natToChars d.year) ++ '-' ::
    (padChars 2 (natToChars d.month) ++ '-' :: padChars 2 (natToChars d.day))

/-- ISO date string `YYYY-MM-DD` (`str(date)` / `strftime('%Y-%m-%d')`). -/
def formatDate (d : PDate) : String := ⟨formatDateChars d⟩

/-- strptime('%Y-%m-%d'): exactly three dash-separated digit groups — a
4-digit year and 1-2 digit month/day — then `datetime.date` range checks. -/
def parseDateChars (cs : List Char) : Option PDate :=
  match splitOnChar '-' cs with
  | [ys, ms, ds] =>
    if ys.length = 4 ∧ allDigits ys ∧
        (ms.length = 1 ∨ ms.length = 2) ∧ allDigits ms ∧
        (ds.length = 1 ∨ ds.length = 2) ∧ allDigits ds then
      let d : PDate := ⟨digitsVal ys, digitsVal ms, digitsVal ds⟩
      if ValidDate d then some d else none
    else none
  | _ => none

/-- `datetime.strptime(s, '%Y-%m-%d').date()`, `none` on `ValueError`. -/
def parseDate (s : String) : Option PDate := parseDateChars s.data

/-! ### Decimal number parsing and 2-decimal formatting

`parseFloat` models Python `float(s)` on plain decimal literals (optional
sign, digits with at most one point; exponent and `inf`/`nan` forms are not
modelled — no theorem below depends on them).  `formatMoney` models
`f'{x:.2f}'`; theorems that use it restrict to amounts that are exact
multiples of `1/100`, where no binary-float rounding is involved. -/

/-- unsigned decimal literal: `digits`, `digits.digits`, `digits.` or `.digits`. -/
def parseUnsignedChars (cs : List Char) : Option ℚ :=
  match splitOnChar '.' cs with
  | [a] => (charsToNat? a).map (fun n => (n : ℚ))
  | [a, b] =>
    if a.isEmpty ∧ b.isEmpty then none
    else
      match (if a.isEmpty then some 0 else charsToNat? a),
            (if b.isEmpty then some 0 else charsToNat? b) with
      | some i, some f => some ((i : ℚ) + (f : ℚ) / (10 : ℚ) ^ b.length)
      | _, _ => none
  | _ => none

/-- signed decimal literal, surrounded by optional whitespace. -/
def parseFloatChars (cs : List Char) : Option ℚ :=
  let t := stripChars cs
  if t.head? = some '-' then (parseUnsignedChars (t.drop 1)).map (fun q => -q)
  else if t.head? = some '+' then parseUnsignedChars (t.drop 1)
  else parseUnsignedChars t

/-- Python `float(s)` on decimal literals, `none` on `ValueError`. -/
def parseFloat (s : String) : Option ℚ := parseFloatChars s.data

/-- digits of `n` paise as `rupees.pp` with exactly two fraction digits. -/
def moneyChars (n : Nat) : List Char :=
  natToChars (n / 100) ++ '.' :: padChars 2 (natToChars (n % 100))

/-- `f'{x:.2f}'`: the amount rounded to hundredths, printed with two
fraction digits (ties of binary floats are not modelled). -/
def formatMoney (q : ℚ) : String :=
  let n : ℤ := round (q * 100)
  if n < 0 then ⟨'-' :: moneyChars n.natAbs⟩ else ⟨moneyChars n.toNat⟩

/-! ### Data model

The SQLAlchemy rows involved in the claims.  Framework columns that no
claim touches (`created_at`, foreign keys to `User`, …) are omitted;
their presence does not affect any modelled computation. -/

/-- `Fertilizer` row: one line item of a bill. -/
structure Fertilizer where
  name : String
  category : String
  price : ℚ
deriving DecidableEq, Repr

/-- `Bill` row together with its `fertilizers` relationship. -/
structure Bill where
  id : Nat
  bill_number : Option String
  purchase_date : PDate
  fertilizers : List Fertilizer
  total_amount : ℚ
deriving DecidableEq, Repr

/-- Sum of the line items' prices (`sum(f.price for f in ...)`). -/
def sumPrices (fs : List Fertilizer) : ℚ := (fs.map Fertilizer.price).sum

/-- Body of `Bill.calculate_total`: the `try` block sums the readable item
collection; the `except` fallback yields `0.0`. -/
def calculate_total_amount : Option (List Fertilizer) → ℚ
  | some fs => sumPrices fs
  | none => 0

/-- `Bill.calculate_total`: store the recomputed total on the bill. -/
def Bill.calculate_total (b : Bill) : Bill :=
  { b with total_amount := calculate_total_amount (some b.fertilizers) }

/-- `Expense` row (fields the dashboard rollup reads). -/
structure Expense where
  description : String
  category : String
  total_amount : ℚ
deriving DecidableEq, Repr

/-- `Field` row (fields the dashboard rollup reads). -/
structure Field where
  name : String
  area_acres : Option ℚ
  is_active : Bool
deriving DecidableEq, Repr

/-! ### Dashboard rollup (`index` route)

The `category_breakdown` dict is modelled as an insertion-ordered
association list with unique keys; `bumpKey` is exactly the
`if key in d: d[key] += v else: d[key] = v` pattern of the route. -/

/-- Add `v` under key `k`: bump an existing entry or append a new one. -/
def bumpKey : List (String × ℚ) → String → ℚ → List (String × ℚ)
  | [], k, v => [(k, v)]
  | (k', v') :: rest, k, v =>
    if k' = k then (k', v' + v) :: rest else (k', v') :: bumpKey rest k v

/-- `total_expenses = total_comprehensive_expenses + total_bill_expenses`. -/
def total_expenses (expenses : List Expense) (bills : List Bill) : ℚ :=
  (expenses.map Expense.total_amount).sum + (bills.map Bill.total_amount).sum

/-- `category_breakdown`: each expense under its own category, then every
bill folded into the legacy `"fertilizers"` key. -/
def category_breakdown (expenses : List Expense) (bills : List Bill) :
    List (String × ℚ) :=
  bills.foldl (fun m b => bumpKey m "fertilizers" b.total_amount)
    (expenses.foldl (fun m e => bumpKey m e.category e.total_amount) [])

/-- `sum(d.values())` for the breakdown dict. -/
def sumValues (m : List (String × ℚ)) : ℚ := (m.map Prod.snd).sum

/-- `d.get(k, 0)` for the breakdown dict. -/
def lookupAmount (m : List (String × ℚ)) (k : String) : ℚ :=
  ((m.find? (fun p => p.1 = k)).map Prod.snd).getD 0

/-- `user_fields`: the active fields of the user. -/
def activeFields (fields : List Field) : List Field :=
  fields.filter (fun f => f.is_active)

/-- `total_acres = sum(f.area_acres for f in user_fields if f.area_acres)` —
the generator's filter is Python truthiness: `None` and `0.0` are skipped. -/
def total_acres (fields : List Field) : ℚ :=
  ((activeFields fields).filterMap (fun f =>
    match f.area_acres with
    | some a => if a ≠ 0 then some a else none
    | none => none)).sum

/-- `cost_per_acre = total_expenses / total_acres if total_acres > 0 else 0`. -/
def cost_per_acre (expenses : List Expense) (bills : List Bill)
    (fields : List Field) : ℚ :=
  if total_acres fields > 0 then total_expenses expenses bills / total_acres fields
  else 0

/-! ### CSV export (`export_data` route) -/

/-- First components of `FERTILIZER_CATEGORIES` (the valid category values). -/
def FERTILIZER_CATEGORY_NAMES : List String :=
  ["Urea", "DAP", "NPK", "MOP", "SSP", "Organic", "Micronutrients", "Liquid"]

/-- The fixed CSV header row. -/
def headerRow : List String :=
  ["Purchase Date", "Bill Number", "Fertilizer Name", "Category", "Price (₹)",
    "Bill Total (₹)", "Items in Bill"]

/-- `bill.bill_number or f'BILL-{bill.id}'`: `None` and `''` are falsy. -/
def effectiveBillNumber (b : Bill) : String :=
  match b.bill_number with
  | some s => if s = "" then "BILL-" ++ ⟨natToChars b.id⟩ else s
  | none => "BILL-" ++ ⟨natToChars b.id⟩

/-- The exported row for one fertilizer of a bill. -/
def rowFor (b : Bill) (f : Fertilizer) : List String :=
  [formatDate b.purchase_date, effectiveBillNumber b, f.name, f.category,
    formatMoney f.price, formatMoney b.total_amount, ⟨natToChars b.fertilizers.length⟩]

/-- All data rows of one bill (one per fertilizer; none for an empty bill). -/
def exportRowsFor (b : Bill) : List (List String) :=
  b.fertilizers.map (rowFor b)

/-- `export_data`: header row, then every bill's fertilizers in order.
The input list is the store's date-descending bill list. -/
def export_data (bills : List Bill) : List (List String) :=
  headerRow :: (bills.map exportRowsFor).flatten

/-! ### CSV import (`import_data` route)

The session state of the import loop: bills already finalized by
`calculate_total` (`doneBills`), the in-progress bill and its grouping key,
the running counters, the error-row list (`errors` records the 1-based row
numbers; the attached Python exception text is not modelled), and the next
auto-increment id the store will assign on `flush`. -/

structure ImportState where
  doneBills : List Bill
  currentBill : Option Bill
  currentKey : Option String
  billsCreated : Nat
  importedCount : Nat
  errors : List Nat
  nextId : Nat
deriving DecidableEq, Repr

/-- `current_bill.calculate_total()` on the previous in-progress bill (if any). -/
def finalizeOpt : Option Bill → List Bill
  | some b => [b.calculate_total]
  | none => []

/-- `float(row[4].replace('₹', '').replace(',', '').strip())`. -/
def parsePrice (s : String) : Option ℚ :=
  parseFloat (pyStrip (removeChar ',' (removeChar '₹' s)))

/-- One iteration of the import loop on `row` (1-based CSV row `rowNum`).
Rows with fewer than 4 fields fall through silently; a price that fails to
parse raises `ValueError` before any state change and is recorded in
`errors`.  (The guard `if current_bill and current_bill.id` of the source is
always true here: the first accepted row always starts a bill.) -/
def importRow (today : PDate) (st : ImportState) (rowNum : Nat)
    (row : List String) : ImportState :=
  if 4 ≤ row.length then
    let bill_number := pyStrip (row.getD 1 "")
    let name := pyStrip (row.getD 2 "")
    let category :=
      if FERTILIZER_CATEGORY_NAMES.contains (pyStrip (row.getD 3 "")) then
        pyStrip (row.getD 3 "")
      else "Urea"
    match (if 4 < row.length then parsePrice (row.getD 4 "") else some (0 : ℚ)) with
    | none => { st with errors := st.errors ++ [rowNum] }
    | some price =>
      let purchase_date := (parseDate (pyStrip (row.getD 0 ""))).getD today
      let bill_key := formatDate purchase_date ++ "_" ++ bill_number
      let st1 :=
        if st.currentKey ≠ some bill_key then
          { st with
            doneBills := st.doneBills ++ finalizeOpt st.currentBill,
            currentBill := some
              { id := st.nextId,
                bill_number := if bill_number = "" then none else some bill_number,
                purchase_date := purchase_date, fertilizers := [], total_amount := 0 },
            currentKey := some bill_key,
            billsCreated := st.billsCreated + 1,
            nextId := st.nextId + 1 }
        else st
      if name = "" then st1
      else
        { st1 with
          currentBill := st1.currentBill.map (fun b =>
            { b with fertilizers :=
                b.fertilizers ++ [{ name := name, category := category, price := price }] }),
          importedCount := st1.importedCount + 1 }
  else st

/-- The import loop over the data rows, numbering from `rowNum`. -/
def runImportRows (today : PDate) (st : ImportState) (rowNum : Nat) :
    List (List String) → ImportState
  | [] => st
  | r :: rs => runImportRows today (importRow today st rowNum r) (rowNum + 1) rs

/-- What `import_data` leaves in the store and reports to the caller. -/
structure ImportResult where
  bills : List Bill
  bills_created : Nat
  imported_count : Nat
  errors : List Nat
deriving DecidableEq, Repr

/-- `import_data` on a decoded CSV: skip the header unconditionally, run the
loop from row 2, then finalize the last in-progress bill.  `today` is the
current date (the fallback for unparseable dates), `nextId` the store's next
auto-increment bill id. -/
def import_data (today : PDate) (nextId : Nat)
    (csvRows : List (List String)) : ImportResult :=
  let final := runImportRows today
    ⟨[], none, none, 0, 0, [], nextId⟩ 2 (csvRows.drop 1)
  { bills := final.doneBills ++ finalizeOpt final.currentBill,
    bills_created := final.billsCreated,
    imported_count := final.importedCount,
    errors := final.errors }

/-- The grouping key `f"{purchase_date}_{bill_number}"` a data row produces. -/
def rowBillKey (today : PDate) (row : List String) : String :=
  formatDate ((parseDate (pyStrip (row.getD 0 ""))).getD today) ++ "_" ++
    pyStrip (row.getD 1 "")

/-- The category value the import stores for a raw CSV category field. -/
def coerceCategory (s : String) : String :=
  if FERTILIZER_CATEGORY_NAMES.contains (pyStrip s) then pyStrip s else "Urea"

/-- The line item re-importing an export row of `f` produces. -/
def importedItem (f : Fertilizer) : Fertilizer :=
  { name := pyStrip f.name, category := coerceCategory f.category, price := f.price }

/-- The grouping key the import derives from a bill's own export rows. -/
def importKey (b : Bill) : String :=
  formatDate b.purchase_date ++ "_" ++ pyStrip (effectiveBillNumber b)

/-- The in-progress bill right after all of `b`'s export rows are consumed. -/
def fullImportedBill (b : Bill) (idv : Nat) : Bill :=
  { id := idv,
    bill_number := if pyStrip (effectiveBillNumber b) = "" then none
      else some (pyStrip (effectiveBillNumber b)),
    purchase_date := b.purchase_date,
    fertilizers := b.fertilizers.map importedItem,
    total_amount := 0 }

/-- The re-imported copy of `b` after finalization, with store id `idv`. -/
def finalImported (idv : Nat) (b : Bill) : Bill :=
  (fullImportedBill b idv).calculate_total

/-- The re-imported copies of a bill list, with ids counting from `idStart`. -/
def finalizedFrom (idStart : Nat) : List Bill → List Bill
  | [] => []
  | b :: rest => finalImported idStart b :: finalizedFrom (idStart + 1) rest

/-- A line item that survives a CSV round trip unchanged: its price is an
exact non-negative multiple of `0.01` and its name does not strip to empty. -/
def GoodItem (f : Fertilizer) : Prop :=
  (∃ k : ℕ, f.price = (k : ℚ) / 100) ∧ pyStrip f.name ≠ ""

/-- A bill that survives a CSV round trip: valid date, at least one item,
good items, and a stored total consistent with its items. -/
def GoodBill (b : Bill) : Prop :=
  ValidDate b.purchase_date ∧ b.fertilizers ≠ [] ∧
    (∀ f ∈ b.fertilizers, GoodItem f) ∧ b.total_amount = sumPrices b.fertilizers

/-! ### Digit-string lemmas -/

lemma digitChar_mem {d : Nat} (h : d < 10) : digitChar d ∈ digitChars := by
  interval_cases d <;> decide

lemma digitChar_val {d : Nat} (h : d < 10) : (digitChar d).toNat - 48 = d := by
  interval_cases d <;> decide

lemma mem_digitChars_isDigit {c : Char} (h : c ∈ digitChars) : c.isDigit = true := by
  fin_cases h <;> decide

lemma mem_digitChars_ne {c : Char} (h : c ∈ digitChars) :
    c ≠ '-' ∧ c ≠ '+' ∧ c ≠ '.' ∧ c ≠ ',' ∧ c ≠ '₹' ∧ c.isWhitespace = false := by
  fin_cases h <;> refine ⟨by decide, by decide, by decide, by decide, by decide, by decide⟩

lemma natToCharsAux_zero (fuel : Nat) : natToCharsAux fuel 0 = [] := by
  cases fuel <;> simp [natToCharsAux]

lemma natToCharsAux_mem :
    ∀ fuel n c, c ∈ natToCharsAux fuel n → c ∈ digitChars := by
  intro fuel
  induction fuel with
  | zero => simp [natToCharsAux]
  | succ f ih =>
    intro n c hc
    by_cases h0 : n = 0
    · simp [natToCharsAux, h0] at hc
    · rw [natToCharsAux, if_neg h0] at hc
      rcases List.mem_append.mp hc with hc | hc
      · exact ih _ _ hc
      · simp at hc
        subst hc
        exact digitChar_mem (Nat.mod_lt _ (by norm_num))

lemma natToChars_mem {n : Nat} {c : Char} (h : c ∈ natToChars n) : c ∈ digitChars := by
  by_cases h0 : n = 0
  · subst h0; simp [natToChars] at h; subst h; decide
  · rw [natToChars, if_neg h0] at h
    exact natToCharsAux_mem _ _ _ h

lemma natToChars_ne_nil (n : Nat) : natToChars n ≠ [] := by
  by_cases h0 : n = 0
  · subst h0; simp [natToChars]
  · rw [natToChars, if_neg h0]
    rw [natToCharsAux, if_neg h0]
    simp

lemma natToCharsAux_length :
    ∀ fuel n k, n < fuel → n < 10 ^ k → (natToCharsAux fuel n).length ≤ k := by
  intro fuel
  induction fuel with
  | zero => omega
  | succ f ih =>
    intro n k hf hk
    by_cases h0 : n = 0
    · simp [h0, natToCharsAux_zero]
    · rw [natToCharsAux, if_neg h0]
      have hk0 : k ≠ 0 := by
        rintro rfl
        simp at hk
        omega
      have hd : n / 10 < 10 ^ (k - 1) := by
        rw [Nat.div_lt_iff_lt_mul (by norm_num)]
        calc n < 10 ^ k := hk
        _ = 10 ^ (k - 1) * 10 := by
            rw [← Nat.pow_succ]
            congr 1
            omega
      have hfd : n / 10 < f := by
        have : n / 10 < n := Nat.div_lt_self (Nat.pos_of_ne_zero h0) (by norm_num)
        omega
      have := ih (n / 10) (k - 1) hfd hd
      simp only [List.length_append, List.length_cons, List.length_nil]
      omega

lemma natToChars_length_le {n k : Nat} (hk : 0 < k) (h : n < 10 ^ k) :
    (natToChars n).length ≤ k := by
  by_cases h0 : n = 0
  · subst h0; simpa [natToChars] using hk
  · rw [natToChars, if_neg h0]
    exact natToCharsAux_length _ _ _ (Nat.lt_succ_self n) h

lemma natToCharsAux_val :
    ∀ fuel n acc, 0 < n → n < fuel →
      List.foldl (fun a c => 10 * a + (c.toNat - 48)) acc (natToCharsAux fuel n)
        = acc * 10 ^ (natToCharsAux fuel n).length + n := by
  intro fuel
  induction fuel with
  | zero => omega
  | succ f ih =>
    intro n acc hn hf
    have h0 : n ≠ 0 := Nat.pos_iff_ne_zero.mp hn
    rw [natToCharsAux, if_neg h0, List.foldl_append]
    by_cases hq : n / 10 = 0
    · have hlt : n < 10 := (Nat.div_eq_zero_iff (by norm_num)).mp hq
      rw [hq, natToCharsAux_zero]
      simp [Nat.mod_eq_of_lt hlt, digitChar_val hlt]
      ring
    · have hfd : n / 10 < f := by
        have : n / 10 < n := Nat.div_lt_self hn (by norm_num)
        omega
      rw [ih (n / 10) acc (Nat.pos_of_ne_zero hq) hfd]
      simp only [List.foldl_cons, List.foldl_nil, List.length_append,
        List.length_cons, List.length_nil]
      rw [digitChar_val (Nat.mod_lt n (show 0 < 10 by norm_num))]
      have hmod := Nat.div_add_mod n 10
      rw [Nat.pow_succ]
      ring_nf
      omega

lemma digitsVal_natToChars (n : Nat) : digitsVal (natToChars n) = n := by
  by_cases h0 : n = 0
  · subst h0; decide
  · rw [natToChars, if_neg h0, digitsVal,
      natToCharsAux_val _ _ _ (Nat.pos_of_ne_zero h0) (Nat.lt_succ_self n)]
    simp

lemma foldl_digit_zeros (m : Nat) (cs : List Char) :
    List.foldl (fun a c => 10 * a + (c.toNat - 48)) 0 (List.replicate m '0' ++ cs)
      = List.foldl (fun a c => 10 * a + (c.toNat - 48)) 0 cs := by
  induction m with
  | zero => simp
  | succ k ih => simpa using ih

lemma digitsVal_padChars (w n : Nat) : digitsVal (padChars w (natToChars n)) = n := by
  rw [padChars, digitsVal, foldl_digit_zeros, ← digitsVal, digitsVal_natToChars]

lemma padChars_mem {w : Nat} {cs : List Char} {c : Char} (h : c ∈ padChars w cs) :
    c = '0' ∨ c ∈ cs := by
  rcases List.mem_append.mp h with h | h
  · exact Or.inl (List.eq_of_mem_replicate h)
  · exact Or.inr h

lemma padChars_length {w : Nat} {cs : List Char} (h : cs.length ≤ w) :
    (padChars w cs).length = w := by
  simp [padChars]
  omega

lemma allDigits_padChars_natToChars (w n : Nat) :
    allDigits (padChars w (natToChars n)) = true := by
  rw [allDigits, List.all_eq_true]
  intro c hc
  rcases padChars_mem hc with rfl | hc
  · decide
  · exact mem_digitChars_isDigit (natToChars_mem hc)

/-! ### Splitting and stripping lemmas -/

lemma splitOnChar_not_mem {sep : Char} {cs : List Char} (h : ∀ c ∈ cs, c ≠ sep) :
    splitOnChar sep cs = [cs] := by
  induction cs with
  | nil => rfl
  | cons a l ih =>
    have ha : a ≠ sep := h a (by simp)
    rw [splitOnChar]
    simp only [ha, if_false, ih (fun c hc => h c (by simp [hc]))]

lemma splitOnChar_append {sep : Char} {a : List Char} (b : List Char)
    (h : ∀ c ∈ a, c ≠ sep) :
    splitOnChar sep (a ++ sep :: b) = a :: splitOnChar sep b := by
  induction a with
  | nil => simp [splitOnChar]
  | cons x xs ih =>
    have hx : x ≠ sep := h x (by simp)
    rw [List.cons_append, splitOnChar]
    simp only [hx, if_false, ih (fun c hc => h c (by simp [hc]))]

lemma dropWhile_eq_self {p : Char → Bool} {cs : List Char}
    (h : ∀ c ∈ cs, p c = false) : cs.dropWhile p = cs := by
  cases cs with
  | nil => rfl
  | cons a l => simp [List.dropWhile_cons, h a (by simp)]

lemma stripChars_eq_self {cs : List Char}
    (h : ∀ c ∈ cs, c.isWhitespace = false) : stripChars cs = cs := by
  rw [stripChars, dropWhile_eq_self h,
    dropWhile_eq_self (fun c hc => h c (List.mem_reverse.mp hc)), List.reverse_reverse]

lemma pyStrip_mk {cs : List Char}
    (h : ∀ c ∈ cs, c.isWhitespace = false) : pyStrip ⟨cs⟩ = ⟨cs⟩ := by
  rw [pyStrip]
  exact congrArg String.mk (stripChars_eq_self h)

lemma removeChar_mk {x : Char} {cs : List Char}
    (h : ∀ c ∈ cs, c ≠ x) : removeChar x ⟨cs⟩ = ⟨cs⟩ := by
  rw [removeChar]
  exact congrArg String.mk (List.filter_eq_self.mpr (by simpa using h))

/-! ### Date round trip -/

lemma formatDateChars_not_whitespace {d : PDate} {c : Char}
    (h : c ∈ formatDateChars d) : c.isWhitespace = false := by
  rw [formatDateChars] at h
  rcases List.mem_append.mp h with h | h
  · rcases padChars_mem h with rfl | h
    · decide
    · exact (mem_digitChars_ne (natToChars_mem h)).2.2.2.2.2
  · rcases List.mem_cons.mp h with rfl | h
    · decide
    · rcases List.mem_append.mp h with h | h
      · rcases padChars_mem h with rfl | h
        · decide
        · exact (mem_digitChars_ne (natToChars_mem h)).2.2.2.2.2
      · rcases List.mem_cons.mp h with rfl | h
        · decide
        · rcases padChars_mem h with rfl | h
          · decide
          · exact (mem_digitChars_ne (natToChars_mem h)).2.2.2.2.2

lemma padChars_natToChars_ne_dash {w n : Nat} {c : Char}
    (h : c ∈ padChars w (natToChars n)) : c ≠ '-' := by
  rcases padChars_mem h with rfl | h
  · decide
  · exact (mem_digitChars_ne (natToChars_mem h)).1

lemma daysInMonth_le (y m : Nat) : daysInMonth y m ≤ 31 := by
  rw [daysInMonth]
  split
  · split <;> omega
  · split <;> omega

lemma parseDateChars_formatDateChars {d : PDate} (h : ValidDate d) :
    parseDateChars (formatDateChars d) = some d := by
  obtain ⟨y, m, dd⟩ := d
  obtain ⟨hy1, hy2, hm1, hm2, hd1, hd2⟩ := h
  have hy1' : 1 ≤ y := hy1
  have hy2' : y ≤ 9999 := hy2
  have hm1' : 1 ≤ m := hm1
  have hm2' : m ≤ 12 := hm2
  have hd1' : 1 ≤ dd := hd1
  have hd2' : dd ≤ daysInMonth y m := hd2
  have hd31 : dd ≤ 31 := le_trans hd2' (daysInMonth_le y m)
  have hYlen : (padChars 4 (natToChars y)).length = 4 :=
    padChars_length (natToChars_length_le (by norm_num) (by omega))
  have hMlen : (padChars 2 (natToChars m)).length = 2 :=
    padChars_length (natToChars_length_le (by norm_num) (by omega))
  have hDlen : (padChars 2 (natToChars dd)).length = 2 :=
    padChars_length (natToChars_length_le (by norm_num) (by omega))
  unfold parseDateChars
  dsimp only [formatDateChars]
  rw [splitOnChar_append _ (fun c hc => padChars_natToChars_ne_dash hc),
    splitOnChar_append _ (fun c hc => padChars_natToChars_ne_dash hc),
    splitOnChar_not_mem (fun c hc => padChars_natToChars_ne_dash hc)]
  dsimp only
  rw [if_pos ⟨hYlen, allDigits_padChars_natToChars 4 y,
    Or.inr hMlen, allDigits_padChars_natToChars 2 m,
    Or.inr hDlen, allDigits_padChars_natToChars 2 dd⟩]
  simp only [digitsVal_padChars]
  rw [if_pos ⟨hy1', hy2', hm1', hm2', hd1', hd2'⟩]

lemma parseDate_formatDate {d : PDate} (h : ValidDate d) :
    parseDate (formatDate d) = some d :=
  parseDateChars_formatDateChars h

lemma pyStrip_formatDate (d : PDate) : pyStrip (formatDate d) = formatDate d :=
  pyStrip_mk (fun _ hc => formatDateChars_not_whitespace hc)

/-! ### Money round trip -/

lemma allDigits_natToChars (n : Nat) : allDigits (natToChars n) = true := by
  rw [allDigits, List.all_eq_true]
  exact fun c hc => mem_digitChars_isDigit (natToChars_mem hc)

lemma charsToNat?_natToChars (n : Nat) : charsToNat? (natToChars n) = some n := by
  rw [charsToNat?, if_pos ⟨natToChars_ne_nil n, allDigits_natToChars n⟩,
    digitsVal_natToChars]

lemma padChars_natToChars_ne_nil (w n : Nat) : padChars w (natToChars n) ≠ [] := by
  rw [padChars]
  simp [natToChars_ne_nil n]

lemma charsToNat?_padChars_natToChars (w n : Nat) :
    charsToNat? (padChars w (natToChars n)) = some n := by
  rw [charsToNat?,
    if_pos ⟨padChars_natToChars_ne_nil w n, allDigits_padChars_natToChars w n⟩,
    digitsVal_padChars]

lemma moneyChars_mem {n : Nat} {c : Char} (h : c ∈ moneyChars n) :
    c ∈ digitChars ∨ c = '.' := by
  rw [moneyChars] at h
  rcases List.mem_append.mp h with h | h
  · exact Or.inl (natToChars_mem h)
  · rcases List.mem_cons.mp h with rfl | h
    · exact Or.inr rfl
    · rcases padChars_mem h with rfl | h
      · exact Or.inl (by decide)
      · exact Or.inl (natToChars_mem h)

lemma isEmpty_natToChars (n : Nat) : (natToChars n).isEmpty = false := by
  cases h : natToChars n with
  | nil => exact absurd h (natToChars_ne_nil n)
  | cons a l => rfl

lemma isEmpty_padChars_natToChars (w n : Nat) :
    (padChars w (natToChars n)).isEmpty = false := by
  cases h : padChars w (natToChars n) with
  | nil => exact absurd h (padChars_natToChars_ne_nil w n)
  | cons a l => rfl

lemma parseUnsignedChars_moneyChars (n : Nat) :
    parseUnsignedChars (moneyChars n) = some ((n : ℚ) / 100) := by
  have hFlen : (padChars 2 (natToChars (n % 100))).length = 2 :=
    padChars_length (natToChars_length_le (by norm_num)
      (Nat.mod_lt n (by norm_num)))
  unfold parseUnsignedChars
  rw [moneyChars,
    splitOnChar_append _
      (fun c hc => (mem_digitChars_ne (natToChars_mem hc)).2.2.1),
    splitOnChar_not_mem (fun c hc => by
      rcases padChars_mem hc with rfl | hc
      · decide
      · exact (mem_digitChars_ne (natToChars_mem hc)).2.2.1)]
  dsimp only
  rw [isEmpty_natToChars, isEmpty_padChars_natToChars]
  simp only [Bool.false_eq_true, false_and, if_false,
    charsToNat?_natToChars, charsToNat?_padChars_natToChars, hFlen]
  congr 1
  field_simp
  have hgoal : (n / 100 * 10 ^ 2 + n % 100) * 100 = n * 10 ^ 2 := by
    norm_num
    omega
  exact_mod_cast hgoal

lemma moneyChars_not_whitespace {n : Nat} {c : Char} (h : c ∈ moneyChars n) :
    c.isWhitespace = false := by
  rcases moneyChars_mem h with h | rfl
  · exact (mem_digitChars_ne h).2.2.2.2.2
  · decide

lemma moneyChars_head {n : Nat} :
    ∃ x xs, moneyChars n = x :: xs ∧ x ∈ digitChars := by
  obtain ⟨x, xs, hx⟩ := List.exists_cons_of_ne_nil (natToChars_ne_nil (n / 100))
  refine ⟨x, xs ++ '.' :: padChars 2 (natToChars (n % 100)), ?_, ?_⟩
  · rw [moneyChars, hx]
    rfl
  · exact natToChars_mem (hx ▸ List.mem_cons_self x xs)

lemma parseFloatChars_moneyChars (n : Nat) :
    parseFloatChars (moneyChars n) = some ((n : ℚ) / 100) := by
  obtain ⟨x, xs, hx, hxd⟩ := moneyChars_head (n := n)
  have hs : stripChars (moneyChars n) = moneyChars n :=
    stripChars_eq_self (fun c hc => moneyChars_not_whitespace hc)
  have hhead : (moneyChars n).head? = some x := by rw [hx]; rfl
  simp only [parseFloatChars]
  rw [hs, hhead]
  rw [if_neg (by simp [(mem_digitChars_ne hxd).1]),
    if_neg (by simp [(mem_digitChars_ne hxd).2.1])]
  exact parseUnsignedChars_moneyChars n

lemma formatMoney_div100 (n : Nat) : formatMoney ((n : ℚ) / 100) = ⟨moneyChars n⟩ := by
  rw [formatMoney]
  have h1 : ((n : ℚ) / 100) * 100 = (n : ℚ) := by
    field_simp
  rw [h1, round_natCast]
  rw [if_neg (by exact not_lt.mpr (Int.natCast_nonneg n))]
  rw [Int.toNat_natCast]

lemma parsePrice_formatMoney (n : Nat) :
    parsePrice (formatMoney ((n : ℚ) / 100)) = some ((n : ℚ) / 100) := by
  have e1 : removeChar '₹' ⟨moneyChars n⟩ = (⟨moneyChars n⟩ : String) :=
    removeChar_mk (fun c hc => by
      rcases moneyChars_mem hc with h | rfl
      · exact (mem_digitChars_ne h).2.2.2.2.1
      · decide)
  have e2 : removeChar ',' ⟨moneyChars n⟩ = (⟨moneyChars n⟩ : String) :=
    removeChar_mk (fun c hc => by
      rcases moneyChars_mem hc with h | rfl
      · exact (mem_digitChars_ne h).2.2.2.1
      · decide)
  have e3 : pyStrip ⟨moneyChars n⟩ = (⟨moneyChars n⟩ : String) :=
    pyStrip_mk (fun c hc => moneyChars_not_whitespace hc)
  rw [formatMoney_div100, parsePrice, e1, e2, e3]
  exact parseFloatChars_moneyChars n

/-! ### Breakdown-dict lemmas -/

lemma sumValues_nil : sumValues [] = 0 := rfl

lemma sumValues_cons (p : String × ℚ) (l : List (String × ℚ)) :
    sumValues (p :: l) = p.2 + sumValues l := by
  simp [sumValues]

lemma sumValues_bumpKey (m : List (String × ℚ)) (k : String) (v : ℚ) :
    sumValues (bumpKey m k v) = sumValues m + v := by
  induction m with
  | nil => simp [bumpKey, sumValues]
  | cons p rest ih =>
    obtain ⟨k', v'⟩ := p
    rw [bumpKey]
    by_cases h : k' = k
    · rw [if_pos h, sumValues_cons, sumValues_cons]
      ring
    · rw [if_neg h, sumValues_cons, sumValues_cons, ih]
      ring

lemma lookupAmount_nil (k : String) : lookupAmount [] k = 0 := rfl

lemma lookupAmount_cons (a : String) (b : ℚ) (l : List (String × ℚ)) (k : String) :
    lookupAmount ((a, b) :: l) k = if a = k then b else lookupAmount l k := by
  by_cases h : a = k <;> simp [lookupAmount, List.find?_cons, h]

lemma lookupAmount_bumpKey (m : List (String × ℚ)) (k k' : String) (v : ℚ) :
    lookupAmount (bumpKey m k v) k'
      = lookupAmount m k' + (if k' = k then v else 0) := by
  induction m with
  | nil =>
    rw [bumpKey, lookupAmount_cons, lookupAmount_nil]
    by_cases h : k' = k
    · simp [h]
    · rw [if_neg (fun hh : k = k' => h hh.symm), if_neg h, add_zero]
  | cons p rest ih =>
    obtain ⟨k₀, v₀⟩ := p
    rw [bumpKey]
    by_cases h0 : k₀ = k
    · subst h0
      rw [if_pos rfl, lookupAmount_cons, lookupAmount_cons]
      by_cases h' : k₀ = k'
      · subst h'
        simp
      · rw [if_neg h', if_neg h', if_neg (fun hh : k' = k₀ => h' hh.symm), add_zero]
    · rw [if_neg h0, lookupAmount_cons, lookupAmount_cons, ih]
      by_cases h' : k₀ = k'
      · subst h'
        rw [if_pos rfl, if_pos rfl, if_neg (fun hh : k₀ = k => h0 hh)]
        ring
      · rw [if_neg h', if_neg h']

lemma sumValues_foldl_bump {α : Type} (key : α → String) (val : α → ℚ) :
    ∀ (xs : List α) (m0 : List (String × ℚ)),
      sumValues (xs.foldl (fun m x => bumpKey m (key x) (val x)) m0)
        = sumValues m0 + (xs.map val).sum := by
  intro xs
  induction xs with
  | nil => simp
  | cons x l ih =>
    intro m0
    rw [List.foldl_cons, ih, sumValues_bumpKey, List.map_cons, List.sum_cons]
    ring

lemma lookupAmount_foldl_bump {α : Type} (key : α → String) (val : α → ℚ) :
    ∀ (xs : List α) (m0 : List (String × ℚ)) (k : String),
      lookupAmount (xs.foldl (fun m x => bumpKey m (key x) (val x)) m0) k
        = lookupAmount m0 k + ((xs.filter (fun x => key x = k)).map val).sum := by
  intro xs
  induction xs with
  | nil => simp
  | cons x l ih =>
    intro m0 k
    rw [List.foldl_cons, ih, lookupAmount_bumpKey, List.filter_cons]
    by_cases h : key x = k
    · rw [if_pos h.symm, if_pos (by simp [h]), List.map_cons, List.sum_cons]
      ring
    · rw [if_neg (fun hh : k = key x => h hh.symm), if_neg (by simp [h]), add_zero]

/-! ### Acreage lemma -/

lemma filterMap_area_sum (l : List Field) :
    (l.filterMap (fun f =>
      match f.area_acres with
      | some a => if a ≠ 0 then some a else none
      | none => none)).sum
      = (l.map (fun f => f.area_acres.getD 0)).sum := by
  induction l with
  | nil => rfl
  | cons f l ih =>
    rw [List.map_cons, List.sum_cons, ← ih]
    rcases hf : f.area_acres with _ | a
    · simp [List.filterMap_cons, hf]
    · by_cases ha : a = 0 <;> simp [List.filterMap_cons, hf, ha]

lemma total_acres_eq (fields : List Field) :
    total_acres fields
      = ((activeFields fields).map (fun f => f.area_acres.getD 0)).sum := by
  rw [total_acres, filterMap_area_sum]

/-! ### Import-loop lemmas -/

lemma rowFor_getD0 (b : Bill) (f : Fertilizer) :
    (rowFor b f).getD 0 "" = formatDate b.purchase_date := rfl

lemma rowFor_getD4 (b : Bill) (f : Fertilizer) :
    (rowFor b f).getD 4 "" = formatMoney f.price := rfl

lemma rowFor_parseDate {b : Bill} (f : Fertilizer) (hd : ValidDate b.purchase_date) :
    parseDate (pyStrip ((rowFor b f).getD 0 "")) = some b.purchase_date := by
  rw [rowFor_getD0, pyStrip_formatDate, parseDate_formatDate hd]

lemma importRow_rowFor_new (today : PDate) (st : ImportState) (n : Nat)
    (b : Bill) (f : Fertilizer)
    (hd : ValidDate b.purchase_date)
    (hp : parsePrice (formatMoney f.price) = some f.price)
    (hn : pyStrip f.name ≠ "")
    (hk : st.currentKey ≠ some (importKey b)) :
    importRow today st n (rowFor b f) =
      { doneBills := st.doneBills ++ finalizeOpt st.currentBill,
        currentBill := some { (fullImportedBill b st.nextId) with
          fertilizers := [importedItem f] },
        currentKey := some (importKey b),
        billsCreated := st.billsCreated + 1,
        importedCount := st.importedCount + 1,
        errors := st.errors,
        nextId := st.nextId + 1 } := by
  have h7 : (rowFor b f).length = 7 := rfl
  have hg1 : (rowFor b f).getD 1 "" = effectiveBillNumber b := rfl
  have hg2 : (rowFor b f).getD 2 "" = f.name := rfl
  have hg3 : (rowFor b f).getD 3 "" = f.category := rfl
  rw [importRow, if_pos (show 4 ≤ (rowFor b f).length by rw [h7]; norm_num),
    if_pos (show 4 < (rowFor b f).length by rw [h7]; norm_num),
    rowFor_getD4, hp]
  simp only [rowFor_parseDate f hd, Option.getD_some, hg1, hg2, hg3]
  rw [show formatDate b.purchase_date ++ "_" ++ pyStrip (effectiveBillNumber b)
      = importKey b from rfl]
  rw [if_neg hn, if_pos hk]
  rfl

lemma importRow_rowFor_same (today : PDate) (st : ImportState) (n : Nat)
    (b : Bill) (f : Fertilizer) (cur : Bill)
    (hd : ValidDate b.purchase_date)
    (hp : parsePrice (formatMoney f.price) = some f.price)
    (hn : pyStrip f.name ≠ "")
    (hk : st.currentKey = some (importKey b))
    (hcb : st.currentBill = some cur) :
    importRow today st n (rowFor b f) =
      { st with
        currentBill := some { cur with
          fertilizers := cur.fertilizers ++ [importedItem f] },
        importedCount := st.importedCount + 1 } := by
  have h7 : (rowFor b f).length = 7 := rfl
  have hg1 : (rowFor b f).getD 1 "" = effectiveBillNumber b := rfl
  have hg2 : (rowFor b f).getD 2 "" = f.name := rfl
  have hg3 : (rowFor b f).getD 3 "" = f.category := rfl
  rw [importRow, if_pos (show 4 ≤ (rowFor b f).length by rw [h7]; norm_num),
    if_pos (show 4 < (rowFor b f).length by rw [h7]; norm_num),
    rowFor_getD4, hp]
  simp only [rowFor_parseDate f hd, Option.getD_some, hg1, hg2, hg3]
  rw [show formatDate b.purchase_date ++ "_" ++ pyStrip (effectiveBillNumber b)
      = importKey b from rfl]
  rw [if_neg hn, if_neg (by rw [hk]; exact fun h => h rfl), hcb]
  rfl

lemma goodItem_parsePrice {f : Fertilizer} (h : GoodItem f) :
    parsePrice (formatMoney f.price) = some f.price := by
  obtain ⟨⟨k, hk⟩, -⟩ := h
  rw [hk]
  exact parsePrice_formatMoney k

lemma runImportRows_append (today : PDate) :
    ∀ (xs ys : List (List String)) (st : ImportState) (n : Nat),
      runImportRows today st n (xs ++ ys)
        = runImportRows today (runImportRows today st n xs) (n + xs.length) ys := by
  intro xs
  induction xs with
  | nil =>
    intro ys st n
    simp [runImportRows]
  | cons r rs ih =>
    intro ys st n
    rw [List.cons_append, runImportRows, ih, runImportRows]
    congr 1
    simp
    omega

lemma runImportRows_same_key (today : PDate) (b : Bill) :
    ∀ (fs : List Fertilizer) (st : ImportState) (cur : Bill) (n : Nat),
      ValidDate b.purchase_date →
      (∀ f ∈ fs, GoodItem f) →
      st.currentKey = some (importKey b) →
      st.currentBill = some cur →
      runImportRows today st n (fs.map (rowFor b))
        = { st with
            currentBill := some { cur with
              fertilizers := cur.fertilizers ++ fs.map importedItem },
            importedCount := st.importedCount + fs.length } := by
  intro fs
  induction fs with
  | nil =>
    intro st cur n hd hgood hk hcb
    rw [List.map_nil, runImportRows, List.map_nil, List.append_nil, ← hcb]
    rfl
  | cons f fs ih =>
    intro st cur n hd hgood hk hcb
    rw [List.map_cons, runImportRows,
      importRow_rowFor_same today st n b f cur hd
        (goodItem_parsePrice (hgood f (by simp)))
        ((hgood f (by simp)).2) hk hcb,
      ih { st with
            currentBill := some { cur with
              fertilizers := cur.fertilizers ++ [importedItem f] },
            importedCount := st.importedCount + 1 }
         { cur with fertilizers := cur.fertilizers ++ [importedItem f] }
         (n + 1) hd (fun g hg => hgood g (by simp [hg])) hk rfl]
    have hlist : (cur.fertilizers ++ [importedItem f]) ++ List.map importedItem fs
        = cur.fertilizers ++ List.map importedItem (f :: fs) := by
      rw [List.append_assoc]
      rfl
    rw [hlist]
    congr 1
    simp
    omega

lemma runImportRows_one_bill (today : PDate) (b : Bill) (st : ImportState) (n : Nat)
    (hg : GoodBill b)
    (hk : st.currentKey ≠ some (importKey b)) :
    runImportRows today st n (exportRowsFor b)
      = { doneBills := st.doneBills ++ finalizeOpt st.currentBill,
          currentBill := some (fullImportedBill b st.nextId),
          currentKey := some (importKey b),
          billsCreated := st.billsCreated + 1,
          importedCount := st.importedCount + b.fertilizers.length,
          errors := st.errors,
          nextId := st.nextId + 1 } := by
  obtain ⟨hd, hne, hitems, -⟩ := hg
  obtain ⟨f0, fs, hfs⟩ := List.exists_cons_of_ne_nil hne
  have hrows : exportRowsFor b = rowFor b f0 :: fs.map (rowFor b) := by
    rw [exportRowsFor, hfs, List.map_cons]
  rw [hrows, runImportRows,
    importRow_rowFor_new today st n b f0 hd
      (goodItem_parsePrice (hitems f0 (by rw [hfs]; simp)))
      ((hitems f0 (by rw [hfs]; simp)).2) hk,
    runImportRows_same_key today b fs _ _ (n + 1) hd
      (fun g hg' => hitems g (by rw [hfs]; simp [hg'])) rfl rfl]
  have hferts : ({ (fullImportedBill b st.nextId) with
        fertilizers := [importedItem f0] } : Bill).fertilizers
        ++ List.map importedItem fs
      = b.fertilizers.map importedItem := by
    rw [hfs, List.map_cons]
    rfl
  rw [hferts]
  have hcount : st.importedCount + 1 + fs.length
      = st.importedCount + b.fertilizers.length := by
    rw [hfs]
    simp
    omega
  rw [hcount]
  rfl

lemma runImportRows_bills (today : PDate) :
    ∀ (bs : List Bill) (st : ImportState) (n : Nat),
      (∀ b ∈ bs, GoodBill b) →
      bs.Chain' (fun a b' => importKey a ≠ importKey b') →
      (∀ b0, bs.head? = some b0 → st.currentKey ≠ some (importKey b0)) →
      ((runImportRows today st n (bs.map exportRowsFor).flatten).doneBills
          ++ finalizeOpt (runImportRows today st n (bs.map exportRowsFor).flatten).currentBill,
        (runImportRows today st n (bs.map exportRowsFor).flatten).billsCreated,
        (runImportRows today st n (bs.map exportRowsFor).flatten).importedCount,
        (runImportRows today st n (bs.map exportRowsFor).flatten).errors)
        = ((st.doneBills ++ finalizeOpt st.currentBill) ++ finalizedFrom st.nextId bs,
           st.billsCreated + bs.length,
           st.importedCount + (bs.map (fun x => x.fertilizers.length)).sum,
           st.errors) := by
  intro bs
  induction bs with
  | nil =>
    intro st n hgood hchain hhead
    simp [runImportRows, finalizedFrom]
  | cons b rest ih =>
    intro st n hgood hchain hhead
    have hstep := runImportRows_one_bill today b st n (hgood b (by simp)) (hhead b rfl)
    rw [List.map_cons, List.flatten_cons, runImportRows_append, hstep]
    have hhead' : ∀ b0, rest.head? = some b0 →
        (some (importKey b) : Option String) ≠ some (importKey b0) := by
      intro b0 h0 hcontra
      exact hchain.rel_head? (Option.mem_def.mpr h0) (Option.some.inj hcontra)
    have h := ih
      { doneBills := st.doneBills ++ finalizeOpt st.currentBill,
        currentBill := some (fullImportedBill b st.nextId),
        currentKey := some (importKey b),
        billsCreated := st.billsCreated + 1,
        importedCount := st.importedCount + b.fertilizers.length,
        errors := st.errors,
        nextId := st.nextId + 1 }
      (n + (exportRowsFor b).length)
      (fun x hx => hgood x (by simp [hx])) hchain.tail hhead'
    simp only [Prod.mk.injEq] at h
    obtain ⟨e1, e2, e3, e4⟩ := h
    simp only [Prod.mk.injEq]
    refine ⟨?_, ?_, ?_, ?_⟩
    · rw [e1, finalizedFrom]
      simp [List.append_assoc, finalImported, finalizeOpt]
    · rw [e2]
      simp
      omega
    · rw [e3]
      simp
      omega
    · exact e4

lemma importRow_five_new (today : PDate) (st : ImportState) (n : Nat)
    (d nb nm c p : String) (q : ℚ)
    (hp : parsePrice p = some q)
    (hn : pyStrip nm ≠ "")
    (hk : st.currentKey ≠ some (rowBillKey today [d, nb, nm, c, p])) :
    importRow today st n [d, nb, nm, c, p] =
      { doneBills := st.doneBills ++ finalizeOpt st.currentBill,
        currentBill := some
          { id := st.nextId,
            bill_number := if pyStrip nb = "" then none else some (pyStrip nb),
            purchase_date := (parseDate (pyStrip d)).getD today,
            fertilizers := [⟨pyStrip nm, coerceCategory c, q⟩],
            total_amount := 0 },
        currentKey := some (rowBillKey today [d, nb, nm, c, p]),
        billsCreated := st.billsCreated + 1,
        importedCount := st.importedCount + 1,
        errors := st.errors,
        nextId := st.nextId + 1 } := by
  have h5 : ([d, nb, nm, c, p] : List String).length = 5 := rfl
  have hg4 : ([d, nb, nm, c, p] : List String).getD 4 "" = p := rfl
  rw [importRow,
    if_pos (show 4 ≤ ([d, nb, nm, c, p] : List String).length by rw [h5]; norm_num),
    if_pos (show 4 < ([d, nb, nm, c, p] : List String).length by rw [h5]; norm_num),
    hg4, hp]
  dsimp only
  rw [show (([d, nb, nm, c, p] : List String).getD 0 "") = d from rfl,
    show (([d, nb, nm, c, p] : List String).getD 1 "") = nb from rfl,
    show (([d, nb, nm, c, p] : List String).getD 2 "") = nm from rfl,
    show (([d, nb, nm, c, p] : List String).getD 3 "") = c from rfl]
  rw [show formatDate ((parseDate (pyStrip d)).getD today) ++ "_" ++ pyStrip nb
      = rowBillKey today [d, nb, nm, c, p] from rfl]
  rw [if_neg hn, if_pos hk]
  rfl

lemma calculate_total_spec (x : Bill) :
    (x.calculate_total).total_amount = sumPrices (x.calculate_total).fertilizers := rfl

lemma mem_finalizeOpt {o : Option Bill} {b : Bill} (h : b ∈ finalizeOpt o) :
    ∃ x, o = some x ∧ b = x.calculate_total := by
  cases o with
  | none => simp [finalizeOpt] at h
  | some x =>
    simp only [finalizeOpt, List.mem_singleton] at h
    exact ⟨x, rfl, h⟩

lemma mem_doneBills_append_finalize {st : ImportState} {b : Bill}
    (h : ∀ x ∈ st.doneBills, x.total_amount = sumPrices x.fertilizers)
    (hb : b ∈ st.doneBills ++ finalizeOpt st.currentBill) :
    b.total_amount = sumPrices b.fertilizers := by
  rcases List.mem_append.mp hb with hb | hb
  · exact h b hb
  · obtain ⟨x, -, rfl⟩ := mem_finalizeOpt hb
    rfl

lemma importRow_invariant (today : PDate) (st : ImportState) (n : Nat)
    (row : List String)
    (h : ∀ b ∈ st.doneBills, b.total_amount = sumPrices b.fertilizers) :
    ∀ b ∈ (importRow today st n row).doneBills,
      b.total_amount = sumPrices b.fertilizers := by
  intro b hb
  rw [importRow] at hb
  repeat' split at hb
  all_goals try dsimp only at hb
  all_goals repeat' split at hb
  all_goals
    first
      | exact h b hb
      | exact mem_doneBills_append_finalize h hb

lemma runImportRows_invariant (today : PDate) :
    ∀ (rows : List (List String)) (st : ImportState) (n : Nat),
      (∀ b ∈ st.doneBills, b.total_amount = sumPrices b.fertilizers) →
      ∀ b ∈ (runImportRows today st n rows).doneBills,
        b.total_amount = sumPrices b.fertilizers := by
  intro rows
  induction rows with
  | nil =>
    intro st n h
    rw [runImportRows]
    exact h
  | cons r rs ih =>
    intro st n h
    rw [runImportRows]
    exact ih _ _ (importRow_invariant today st n r h)

lemma sumPrices_map_importedItem (fs : List Fertilizer) :
    sumPrices (fs.map importedItem) = sumPrices fs := by
  rw [sumPrices, sumPrices, List.map_map]
  rfl

lemma finalizedFrom_map_pair :
    ∀ (bs : List Bill) (idStart : Nat),
      (∀ b ∈ bs, b.total_amount = sumPrices b.fertilizers) →
      (finalizedFrom idStart bs).map (fun b => (b.fertilizers.length, b.total_amount))
        = bs.map (fun b => (b.fertilizers.length, b.total_amount)) := by
  intro bs
  induction bs with
  | nil =>
    intro idStart h
    rfl
  | cons b rest ih =>
    intro idStart h
    rw [finalizedFrom, List.map_cons, List.map_cons,
      ih _ (fun x hx => h x (by simp [hx]))]
    congr 1
    rw [Prod.mk.injEq]
    constructor
    · simp [finalImported, fullImportedBill, Bill.calculate_total]
    · rw [h b (by simp)]
      simp only [finalImported, fullImportedBill, Bill.calculate_total,
        calculate_total_amount]
      exact sumPrices_map_importedItem b.fertilizers

/-! ### Claim theorems -/

/-- C1: for every Bill with any set of line items (possibly empty), after
`calculate_total` the bill's `total_amount` equals the sum of its line
items' prices; it is `0.0` when the item collection is empty, and the
defensive `except` fallback of `calculate_total` also yields `0.0` when the
collection cannot be read. -/
theorem C1_calculate_total (b : Bill) :
    (b.calculate_total).total_amount = sumPrices b.fertilizers
    ∧ (b.fertilizers = [] → (b.calculate_total).total_amount = 0)
    ∧ calculate_total_amount none = 0 := by
  refine ⟨rfl, fun h => ?_, rfl⟩
  simp [Bill.calculate_total, calculate_total_amount, h, sumPrices]

/-- Witness for C1 at a concrete bill with no items and a stale total `5`:
after `calculate_total` the stored total is `0`. -/
theorem C1_calculate_total_witness :
    (({ id := 1, bill_number := none, purchase_date := ⟨2025, 1, 15⟩,
        fertilizers := [], total_amount := 5 } : Bill).calculate_total).total_amount
      = 0 :=
  (C1_calculate_total
    ({ id := 1, bill_number := none, purchase_date := ⟨2025, 1, 15⟩,
       fertilizers := [], total_amount := 5 } : Bill)).2.1 rfl

/-- C4: importing the 2-row CSV with rows
`("2025-01-15","BILL-001","Urea A","Urea","100.00")` and
`("2025-01-15","BILL-001","DAP B","DAP","200.00")` yields exactly one Bill,
with `total_amount = 300.00` and exactly two line items. -/
theorem C4_concrete_two_row_import :
    (import_data ⟨2025, 6, 1⟩ 1
        [headerRow,
         ["2025-01-15", "BILL-001", "Urea A", "Urea", "100.00"],
         ["2025-01-15", "BILL-001", "DAP B", "DAP", "200.00"]]).bills.map
      (fun b => (b.fertilizers.length, b.total_amount)) = [(2, 300)]
    ∧ (import_data ⟨2025, 6, 1⟩ 1
        [headerRow,
         ["2025-01-15", "BILL-001", "Urea A", "Urea", "100.00"],
         ["2025-01-15", "BILL-001", "DAP B", "DAP", "200.00"]]).bills_created = 1 := by
  constructor <;>
    simp +decide [import_data, runImportRows, importRow, parsePrice, parseFloat,
      parseFloatChars, parseUnsignedChars, splitOnChar, charsToNat?, allDigits,
      digitsVal, pyStrip, stripChars, removeChar, parseDate, parseDateChars,
      formatDate, formatDateChars, natToChars, natToCharsAux, padChars, digitChar,
      FERTILIZER_CATEGORY_NAMES, headerRow, finalizeOpt, Bill.calculate_total,
      calculate_total_amount, sumPrices, ValidDate, daysInMonth] <;> norm_num

/-- C10: a valid import can persist a Bill with zero line items: a ≥4-field
data row whose item-name field strips to empty still starts and counts a new
Bill when its grouping key differs from the previous row's, but adds no
line item, leaving a Bill with `total_amount = 0.0`. -/
theorem C10_empty_name_creates_zero_item_bill :
    (import_data ⟨2025, 6, 1⟩ 1
        [headerRow,
         ["2025-01-15", "BILL-001", "Urea A", "Urea", "100.00"],
         ["2025-01-16", "BILL-002", " ", "Urea", "50.00"]]).bills.map
      (fun b => (b.fertilizers.length, b.total_amount)) = [(1, 100), (0, 0)]
    ∧ (import_data ⟨2025, 6, 1⟩ 1
        [headerRow,
         ["2025-01-15", "BILL-001", "Urea A", "Urea", "100.00"],
         ["2025-01-16", "BILL-002", " ", "Urea", "50.00"]]).bills_created = 2
    ∧ (import_data ⟨2025, 6, 1⟩ 1
        [headerRow,
         ["2025-01-15", "BILL-001", "Urea A", "Urea", "100.00"],
         ["2025-01-16", "BILL-002", " ", "Urea", "50.00"]]).errors = [] := by
  refine ⟨?_, ?_, ?_⟩ <;>
    simp +decide [import_data, runImportRows, importRow, parsePrice, parseFloat,
      parseFloatChars, parseUnsignedChars, splitOnChar, charsToNat?, allDigits,
      digitsVal, pyStrip, stripChars, removeChar, parseDate, parseDateChars,
      formatDate, formatDateChars, natToChars, natToCharsAux, padChars, digitChar,
      FERTILIZER_CATEGORY_NAMES, headerRow, finalizeOpt, Bill.calculate_total,
      calculate_total_amount, sumPrices, ValidDate, daysInMonth]

/-- C5: every Bill in the result of any import — including the last,
finalized after the row loop — has `total_amount` equal to the sum of its
line items' prices. -/
theorem C5_all_imported_bills_consistent (today : PDate) (nextId : Nat)
    (csvRows : List (List String)) :
    ∀ b ∈ (import_data today nextId csvRows).bills,
      b.total_amount = sumPrices b.fertilizers := by
  intro b hb
  rw [import_data] at hb
  dsimp only at hb
  rcases List.mem_append.mp hb with hb | hb
  · exact runImportRows_invariant today _ _ _
      (fun x hx => absurd hx (List.not_mem_nil x)) b hb
  · obtain ⟨x, -, rfl⟩ := mem_finalizeOpt hb
    rfl

/-- Witness for C5 at the concrete 2-row import of C4: the single resulting
bill (total `300`, two items) satisfies the invariant. -/
theorem C5_all_imported_bills_consistent_witness :
    ({ id := 1, bill_number := some "BILL-001", purchase_date := ⟨2025, 1, 15⟩,
       fertilizers := [⟨"Urea A", "Urea", 100⟩, ⟨"DAP B", "DAP", 200⟩],
       total_amount := 300 } : Bill).total_amount
      = sumPrices [⟨"Urea A", "Urea", 100⟩, ⟨"DAP B", "DAP", 200⟩] :=
  C5_all_imported_bills_consistent ⟨2025, 6, 1⟩ 1
    [headerRow,
     ["2025-01-15", "BILL-001", "Urea A", "Urea", "100.00"],
     ["2025-01-15", "BILL-001", "DAP B", "DAP", "200.00"]]
    _
    (by simp +decide [import_data, runImportRows, importRow, parsePrice, parseFloat,
      parseFloatChars, parseUnsignedChars, splitOnChar, charsToNat?, allDigits,
      digitsVal, pyStrip, stripChars, removeChar, parseDate, parseDateChars,
      formatDate, formatDateChars, natToChars, natToCharsAux, padChars, digitChar,
      FERTILIZER_CATEGORY_NAMES, headerRow, finalizeOpt, Bill.calculate_total,
      calculate_total_amount, sumPrices, ValidDate, daysInMonth] <;> norm_num)

/-- C8: a data row with fewer than 4 fields is skipped silently — the loop
state (bills, in-progress bill, grouping key, counters, error list) is
untouched and the import continues with the next row. -/
theorem C8_short_row_skipped (today : PDate) (st : ImportState) (n : Nat)
    (row : List String) (rest : List (List String)) (h : row.length < 4) :
    importRow today st n row = st
    ∧ runImportRows today st n (row :: rest) = runImportRows today st (n + 1) rest := by
  have h1 : importRow today st n row = st := by
    rw [importRow, if_neg (by omega)]
  exact ⟨h1, by rw [runImportRows, h1]⟩

/-- Witness for C8 at a concrete 2-field row and a concrete loop state. -/
theorem C8_short_row_skipped_witness :
    importRow ⟨2025, 6, 1⟩ ⟨[], none, none, 0, 0, [], 1⟩ 2 ["2025-01-15", "BILL-001"]
      = ⟨[], none, none, 0, 0, [], 1⟩ :=
  (C8_short_row_skipped ⟨2025, 6, 1⟩ ⟨[], none, none, 0, 0, [], 1⟩ 2
    ["2025-01-15", "BILL-001"] [] (by norm_num)).1

/-- C6: the dashboard's `category_breakdown` attributes each Expense to its
own category key and every Bill to the `"fertilizers"` key, and the sum of
all breakdown values equals `total_expenses`. -/
theorem C6_category_breakdown (es : List Expense) (bs : List Bill) :
    sumValues (category_breakdown es bs) = total_expenses es bs
    ∧ ∀ k, lookupAmount (category_breakdown es bs) k
        = ((es.filter (fun e => e.category = k)).map Expense.total_amount).sum
          + (if k = "fertilizers" then (bs.map Bill.total_amount).sum else 0) := by
  constructor
  · rw [category_breakdown,
      sumValues_foldl_bump (fun _ => "fertilizers") Bill.total_amount bs,
      sumValues_foldl_bump Expense.category Expense.total_amount es,
      sumValues_nil, total_expenses, zero_add]
  · intro k
    rw [category_breakdown,
      lookupAmount_foldl_bump (fun _ => "fertilizers") Bill.total_amount bs _ k,
      lookupAmount_foldl_bump Expense.category Expense.total_amount es _ k,
      lookupAmount_nil, zero_add]
    congr 1
    by_cases hk : k = "fertilizers"
    · rw [if_pos hk]
      have : bs.filter (fun _ => decide ("fertilizers" = k)) = bs := by
        rw [List.filter_eq_self]
        intro a ha
        simp [hk]
      rw [this]
    · rw [if_neg hk]
      have : bs.filter (fun _ => decide ("fertilizers" = k)) = [] := by
        rw [List.filter_eq_nil_iff]
        intro a ha
        simp
        exact fun hh => hk hh.symm
      rw [this]
      rfl

/-- C7: `cost_per_acre` is exactly `0` when the summed area of the user's
active fields is `0`, and otherwise equals `total_expenses` divided by that
sum; with the form-enforced non-negative areas the division branch runs only
with a positive divisor. -/
theorem C7_cost_per_acre (es : List Expense) (bs : List Bill) (fields : List Field)
    (hpos : ∀ f ∈ fields, 0 ≤ f.area_acres.getD 0) :
    (((activeFields fields).map (fun f => f.area_acres.getD 0)).sum = 0 →
      cost_per_acre es bs fields = 0)
    ∧ (((activeFields fields).map (fun f => f.area_acres.getD 0)).sum ≠ 0 →
      cost_per_acre es bs fields
        = total_expenses es bs
          / ((activeFields fields).map (fun f => f.area_acres.getD 0)).sum) := by
  have hta := total_acres_eq fields
  constructor
  · intro h0
    rw [cost_per_acre, if_neg]
    rw [hta, h0]
    norm_num
  · intro hne
    have hnn : 0 ≤ ((activeFields fields).map (fun f => f.area_acres.getD 0)).sum := by
      apply List.sum_nonneg
      intro x hx
      obtain ⟨g, hg, rfl⟩ := List.mem_map.mp hx
      exact hpos g (List.mem_of_mem_filter hg)
    have hgt : total_acres fields > 0 := by
      rw [hta]
      exact lt_of_le_of_ne hnn (Ne.symm hne)
    rw [cost_per_acre, if_pos hgt, hta]

/-- Witness for C7 at one active 2-acre field, no expenses and one bill of
total `10`. -/
theorem C7_cost_per_acre_witness :
    cost_per_acre [] [⟨1, none, ⟨2025, 1, 15⟩, [], 10⟩] [⟨"North", some 2, true⟩]
      = total_expenses [] [⟨1, none, ⟨2025, 1, 15⟩, [], 10⟩]
        / ((activeFields [⟨"North", some 2, true⟩]).map
            (fun f => f.area_acres.getD 0)).sum :=
  (C7_cost_per_acre [] [⟨1, none, ⟨2025, 1, 15⟩, [], 10⟩] [⟨"North", some 2, true⟩]
    (by intro f hf; fin_cases hf; norm_num)).2
    (by simp +decide [activeFields])

/-- C3: in an imported CSV whose first and third data rows share a grouping
key while the second row in between has a different key, the import creates
two separate Bills for the shared key — each holding only its own row's
item — plus the middle bill: grouping is by adjacency, never merged across
non-contiguous rows. -/
theorem C3_adjacency_grouping (today : PDate) (nextId : Nat)
    (d1 n1 nm1 c1 p1 d2 n2 nm2 c2 p2 d3 n3 nm3 c3 p3 : String) (q1 q2 q3 : ℚ)
    (hp1 : parsePrice p1 = some q1) (hp2 : parsePrice p2 = some q2)
    (hp3 : parsePrice p3 = some q3)
    (hn1 : pyStrip nm1 ≠ "") (hn2 : pyStrip nm2 ≠ "") (hn3 : pyStrip nm3 ≠ "")
    (hshare : rowBillKey today [d3, n3, nm3, c3, p3]
      = rowBillKey today [d1, n1, nm1, c1, p1])
    (hdiff : rowBillKey today [d2, n2, nm2, c2, p2]
      ≠ rowBillKey today [d1, n1, nm1, c1, p1]) :
    (import_data today nextId
        [headerRow, [d1, n1, nm1, c1, p1], [d2, n2, nm2, c2, p2],
          [d3, n3, nm3, c3, p3]]).bills
      = [{ id := nextId,
           bill_number := if pyStrip n1 = "" then none else some (pyStrip n1),
           purchase_date := (parseDate (pyStrip d1)).getD today,
           fertilizers := [⟨pyStrip nm1, coerceCategory c1, q1⟩],
           total_amount := q1 },
         { id := nextId + 1,
           bill_number := if pyStrip n2 = "" then none else some (pyStrip n2),
           purchase_date := (parseDate (pyStrip d2)).getD today,
           fertilizers := [⟨pyStrip nm2, coerceCategory c2, q2⟩],
           total_amount := q2 },
         { id := nextId + 2,
           bill_number := if pyStrip n3 = "" then none else some (pyStrip n3),
           purchase_date := (parseDate (pyStrip d3)).getD today,
           fertilizers := [⟨pyStrip nm3, coerceCategory c3, q3⟩],
           total_amount := q3 }]
    ∧ (import_data today nextId
        [headerRow, [d1, n1, nm1, c1, p1], [d2, n2, nm2, c2, p2],
          [d3, n3, nm3, c3, p3]]).bills_created = 3 := by
  rw [import_data]
  simp only [List.drop_succ_cons, List.drop_zero]
  rw [runImportRows, importRow_five_new today _ 2 d1 n1 nm1 c1 p1 q1 hp1 hn1
      (by simp),
    runImportRows, importRow_five_new today _ 3 d2 n2 nm2 c2 p2 q2 hp2 hn2
      (fun h => hdiff (Option.some.inj h).symm),
    runImportRows, importRow_five_new today _ 4 d3 n3 nm3 c3 p3 q3 hp3 hn3
      (by rw [hshare]; exact fun h => hdiff (Option.some.inj h)),
    runImportRows]
  refine ⟨?_, rfl⟩
  simp [finalizeOpt, Bill.calculate_total, calculate_total_amount, sumPrices]

/-- Witness for C3 at the spec's scenario: two `BILL-001` rows separated by
a `BILL-002` row on the same date yield two separate one-item `BILL-001`
bills around the `BILL-002` bill. -/
theorem C3_adjacency_grouping_witness :
    (import_data ⟨2025, 6, 1⟩ 1
        [headerRow,
         ["2025-01-15", "BILL-001", "Urea A", "Urea", "100.00"],
         ["2025-01-15", "BILL-002", "NPK X", "NPK", "50.00"],
         ["2025-01-15", "BILL-001", "DAP B", "DAP", "200.00"]]).bills.map
      (fun b => (b.bill_number, b.fertilizers.length))
      = [(some "BILL-001", 1), (some "BILL-002", 1), (some "BILL-001", 1)] := by
  have h := C3_adjacency_grouping ⟨2025, 6, 1⟩ 1
    "2025-01-15" "BILL-001" "Urea A" "Urea" "100.00"
    "2025-01-15" "BILL-002" "NPK X" "NPK" "50.00"
    "2025-01-15" "BILL-001" "DAP B" "DAP" "200.00"
    100 50 200
    (by simp +decide [parsePrice, parseFloat, parseFloatChars, parseUnsignedChars,
      splitOnChar, charsToNat?, allDigits, digitsVal, pyStrip, stripChars,
      removeChar])
    (by simp +decide [parsePrice, parseFloat, parseFloatChars, parseUnsignedChars,
      splitOnChar, charsToNat?, allDigits, digitsVal, pyStrip, stripChars,
      removeChar])
    (by simp +decide [parsePrice, parseFloat, parseFloatChars, parseUnsignedChars,
      splitOnChar, charsToNat?, allDigits, digitsVal, pyStrip, stripChars,
      removeChar])
    (by decide) (by decide) (by decide) (by decide) (by decide)
  rw [h.1]
  simp +decide [coerceCategory, pyStrip, stripChars, FERTILIZER_CATEGORY_NAMES]

/-- C2 (amended): exporting a list of Bills and re-importing the CSV into an
empty store reproduces the bill count and each bill's item count and total,
provided every bill has at least one item, item names do not strip to
empty, prices are exact non-negative multiples of `0.01`, stored totals
equal the item-price sums, purchase dates are valid calendar dates, and no
two adjacent bills of the export order share a grouping key. -/
theorem C2_export_import_roundtrip (today : PDate) (nextId : Nat) (bs : List Bill)
    (hgood : ∀ b ∈ bs, GoodBill b)
    (hchain : bs.Chain' (fun a b' => importKey a ≠ importKey b')) :
    (import_data today nextId (export_data bs)).bills_created = bs.length
    ∧ (import_data today nextId (export_data bs)).bills.map
        (fun b => (b.fertilizers.length, b.total_amount))
      = bs.map (fun b => (b.fertilizers.length, b.total_amount)) := by
  have h := runImportRows_bills today bs ⟨[], none, none, 0, 0, [], nextId⟩ 2
    hgood hchain (fun b0 h0 => by simp)
  simp only [Prod.mk.injEq] at h
  obtain ⟨e1, e2, -, -⟩ := h
  have hdrop : (export_data bs).drop 1 = (bs.map exportRowsFor).flatten := rfl
  constructor
  · rw [import_data, hdrop]
    dsimp only
    rw [e2]
    exact Nat.zero_add bs.length
  · rw [import_data, hdrop]
    dsimp only
    rw [e1]
    simp only [finalizeOpt, List.nil_append]
    exact finalizedFrom_map_pair bs nextId (fun b hb => (hgood b hb).2.2.2)

/-- Counterexample for C2 as stated: a Bill with zero line items emits no
export rows, so re-importing its export reproduces zero bills, not one. -/
theorem C2_export_import_roundtrip_counterexample :
    (import_data ⟨2025, 6, 1⟩ 1
        (export_data [⟨1, some "BILL-001", ⟨2025, 1, 15⟩, [], 0⟩])).bills_created
      ≠ [(⟨1, some "BILL-001", ⟨2025, 1, 15⟩, [], 0⟩ : Bill)].length := by
  decide

/-- Witness for C2 (amended) at one good bill with a single `100.00` item. -/
theorem C2_export_import_roundtrip_witness :
    (import_data ⟨2025, 6, 1⟩ 7
        (export_data [⟨3, some "BILL-001", ⟨2025, 1, 15⟩,
          [⟨"Urea A", "Urea", 100⟩], 100⟩])).bills_created
      = [(⟨3, some "BILL-001", ⟨2025, 1, 15⟩,
          [⟨"Urea A", "Urea", 100⟩], 100⟩ : Bill)].length
    ∧ (import_data ⟨2025, 6, 1⟩ 7
        (export_data [⟨3, some "BILL-001", ⟨2025, 1, 15⟩,
          [⟨"Urea A", "Urea", 100⟩], 100⟩])).bills.map
        (fun b => (b.fertilizers.length, b.total_amount))
      = [(⟨3, some "BILL-001", ⟨2025, 1, 15⟩,
          [⟨"Urea A", "Urea", 100⟩], 100⟩ : Bill)].map
        (fun b => (b.fertilizers.length, b.total_amount)) :=
  C2_export_import_roundtrip ⟨2025, 6, 1⟩ 7
    [⟨3, some "BILL-001", ⟨2025, 1, 15⟩, [⟨"Urea A", "Urea", 100⟩], 100⟩]
    (by
      intro b hb
      fin_cases hb
      refine ⟨by decide, by decide, ?_, by norm_num [sumPrices]⟩
      intro f hf
      fin_cases hf
      exact ⟨⟨10000, by norm_num⟩, by decide⟩)
    (by simp)

end FertilizerTracker
